import Mathlib

/-!
Verification of the AlfaFrens client plugin (superfluid-finance/client-alfafrens)
against its natural-language specification.

This file shallowly embeds the message-processing and fact-validation pipeline:

* the data model (`AlfaFrensMessage`, `FactValidation`, `Contradiction`) from
  `src/types.ts` and `src/extensions/fact-validation.ts`;
* the orchestrator's poll-cycle checkpoint update
  (`AlfaFrensAIInteraction.processMessages`) and per-message skip logic
  (`processMessageBatch`);
* the fact validator (`calculateFactConfidence`, `storeFact`, `extractFacts`,
  `extractFactsFallback`);
* the generation helpers (`generateLLMResponse` timeout race,
  `generatePostContent`, the validation/correction phase of `generateResponse`);
* the API client's `getMessages` URL construction.

Machine numbers are modelled by `Int` (epoch milliseconds) and `ℚ`
(confidence scores); external effects (the remote API, the generation
service, the memory store) are passed in as explicit values or functions, so
every definition is executable.
-/

/-- A chat message as fetched from the AlfaFrens API (`src/types.ts`,
`AlfaFrensMessage`).  `timestamp` is the epoch-millisecond value that
`new Date(msg.timestamp).getTime()` yields for the ISO timestamp string.
`senderUsername` is `Option`al because the processing code guards it with
optional chaining (`message.senderUsername?.replace(...)`). -/
structure AlfaFrensMessage where
  id : String
  senderId : String
  senderUsername : Option String
  content : String
  timestamp : Int
  deriving Repr, DecidableEq

/-- The configuration fields of `AlfaFrensConfig` (`src/types.ts`) that the
self-message filter consults. -/
structure AlfaFrensConfig where
  userId : String
  username : String
  deriving Repr, DecidableEq

/-- A detected contradiction (`src/extensions/fact-validation.ts`,
`Contradiction`). -/
structure Contradiction where
  fact : String
  existingFact : String
  confidence : ℚ
  timestamp : Int
  deriving Repr, DecidableEq

/-- The result of validating one fact (`src/extensions/fact-validation.ts`,
`FactValidation`).  A relationship triple is (sourceEntityId, targetEntityId,
tags). -/
structure FactValidation where
  confidence : ℚ
  source : String
  timestamp : Int
  contradictions : List String
  relationships : List (String × String × List String)
  deriving Repr, DecidableEq

/-- One record written to the persistent memory store by
`FactValidationManager.storeFact`: the fact text together with the metadata
of the `Memory` object it builds. -/
structure StoredFact where
  text : String
  confidence : ℚ
  source : String
  timestamp : Int
  contradictions : List String
  deriving Repr, DecidableEq

/-- The `Memory` content `storeFact` builds for a fact before calling
`createMemory` (`fact-validation.ts` lines 332-347). -/
def mkFactMemory (fact : String) (v : FactValidation) : StoredFact :=
  { text := fact
    confidence := v.confidence
    source := v.source
    timestamp := v.timestamp
    contradictions := v.contradictions }

/-- `FactValidationManager.confidenceThreshold` (`fact-validation.ts` line 93). -/
def confidenceThreshold : ℚ := 7/10

/-- `FactValidationManager.storeFact` (`fact-validation.ts` lines 325-353):
returns the store unchanged when `confidence < confidenceThreshold`
(a logged no-op), otherwise appends the fact record.  The store itself is the
external memory store, modelled as the list of records written so far. -/
def storeFact (store : List StoredFact) (fact : String) (v : FactValidation) :
    List StoredFact :=
  if v.confidence < confidenceThreshold then store
  else store ++ [mkFactMemory fact v]

/-- Average of the contradiction confidences, as computed by the
`reduce`/`length` expression in `calculateFactConfidence`
(`fact-validation.ts` lines 304-307). -/
def avgContradictionConfidence (cs : List Contradiction) : ℚ :=
  (cs.foldl (fun acc c => acc + c.confidence) 0) / (cs.length : ℚ)

/-- `FactValidationManager.calculateFactConfidence`
(`fact-validation.ts` lines 290-313): base 0.5, +0.2 when the message sender
is the agent itself, minus 0.3 times the average contradiction confidence
when contradictions exist, clamped to [0,1]. -/
def calculateFactConfidence (agentId : String) (message : AlfaFrensMessage)
    (contradictions : List Contradiction) : ℚ :=
  let base : ℚ := 1/2
  let withSource : ℚ := if message.senderId = agentId then base + 2/10 else base
  let adjusted : ℚ :=
    if 0 < contradictions.length then
      withSource - avgContradictionConfidence contradictions * (3/10)
    else withSource
  max 0 (min 1 adjusted)

/-! ### Orchestrator poll cycle (`src/unnamed/part_006`, `AlfaFrensAIInteraction`) -/

/-- The orchestrator state the poll cycle mutates: the checkpoint
`lastProcessedTime` and the rolling `messageHistory` buffer. -/
structure PollState where
  lastProcessedTime : Int
  messageHistory : List AlfaFrensMessage
  deriving Repr, DecidableEq

/-- The last `n` elements of a list, as JavaScript `array.slice(-n)`. -/
def lastN (n : Nat) (l : List α) : List α := l.drop (l.length - n)

/-- The state update of `AlfaFrensAIInteraction.processMessages`
(`part_006` lines 236-252) for one poll cycle, as a function of the batch the
fetch returned: an empty batch returns early leaving the state unchanged; a
non-empty batch is appended to the history (keeping the last 50) and the
checkpoint becomes the last fetched message's timestamp plus 1 ms. -/
def processMessagesUpdate (s : PollState) (msgs : List AlfaFrensMessage) :
    PollState :=
  match msgs with
  | [] => s
  | m :: rest =>
    { messageHistory := lastN 50 (s.messageHistory ++ (m :: rest))
      lastProcessedTime := (rest.getLastD m).timestamp + 1 }

/-- The `since` value the next poll cycle fetches with
(`part_006` lines 227-232: `since: this.lastProcessedTime`). -/
def nextFetchSince (s : PollState) : Int := s.lastProcessedTime

/-- The maximum `createdAt` timestamp of a non-empty batch `m :: rest`. -/
def maxCreatedAt (m : AlfaFrensMessage) (rest : List AlfaFrensMessage) : Int :=
  rest.foldl (fun acc x => max acc x.timestamp) m.timestamp

/-! ### API client URL construction (`src/unnamed/part_008`, `AlfaFrensApi`) -/

/-- Options of `AlfaFrensApi.getMessages` (`part_008` lines 52-57).
`untilTs` is the `until` option. -/
structure GetMessagesOptions where
  since : Option Int
  untilTs : Option Int
  includeReactions : Bool
  includeReplies : Bool
  deriving Repr, DecidableEq

/-- The value interpolated for `since` in the request URL
(`part_008` line 61: `options.since || Date.now() - 3600000`).  The default
is selected by JavaScript's falsy test, so both an absent `since` and
`since = 0` yield `now - 3600000` (one hour ago). -/
def getMessagesSinceParam (since : Option Int) (now : Int) : Int :=
  match since with
  | some s => if s = 0 then now - 3600000 else s
  | none => now - 3600000

/-- The URL built by `AlfaFrensApi.getMessages` (`part_008` lines 59-86):
the `since` parameter, then `until` when truthy, then the `include` list. -/
def getMessagesUrl (o : GetMessagesOptions) (now : Int) : String :=
  let base := "/api/ai/getChannelMessages?since=" ++
    toString (getMessagesSinceParam o.since now)
  let withUntil :=
    match o.untilTs with
    | some u => if u = 0 then base else base ++ "&until=" ++ toString u
    | none => base
  if o.includeReactions || o.includeReplies then
    let includeValues : List String :=
      if o.includeReplies then ["reactions", "replies"]
      else if o.includeReactions then ["reactions"]
      else []
    if 0 < includeValues.length then
      withUntil ++ "&include=" ++ String.intercalate "," includeValues
    else withUntil
  else withUntil

/-! ### Checkpoint persistence across restarts
(`src/src/alfafrens-client.ts` and `src/unnamed/part_006`) -/

/-- The checkpoint `AlfaFrensManager.initialize` restores into the manager's
own `lastProcessedTime` field (`alfafrens-client.ts` lines 269-273):
`cached || Date.now() - 5 * 60 * 1000`, a falsy test, so an absent or zero
cached value defaults to five minutes before `now`. -/
def managerRestoredCheckpoint (cached : Option Int) (now : Int) : Int :=
  match cached with
  | some c => if c = 0 then now - 5 * 60 * 1000 else c
  | none => now - 5 * 60 * 1000

/-- The initial value of `AlfaFrensAIInteraction.lastProcessedTime`
(`part_006` line 111: `private lastProcessedTime: number = Date.now()`).
It is set when the interaction manager is constructed and neither the
constructor arguments nor `start()` ever assign the manager's restored
checkpoint to it. -/
def aiInteractionInitCheckpoint (constructionTime : Int) : Int := constructionTime

/-- The value `AlfaFrensManager.stop` persists to the external cache
(`alfafrens-client.ts` line 312): the manager's own `lastProcessedTime`
field, which no message-processing code ever advances. -/
def managerPersistedOnStop (managerCheckpoint : Int) : Int := managerCheckpoint

/-! ### Self-message filtering (`src/unnamed/part_006`, `processMessageBatch`) -/

/-- Remove the first occurrence of `c` from a character list, as JavaScript's
`string.replace(c, '')` with a plain string pattern does. -/
def removeFirstChar (c : Char) : List Char → List Char
  | [] => []
  | x :: xs => if x = c then xs else x :: removeFirstChar c xs

/-- JavaScript `s.replace('@', '')`: the string with its first `'@'`
occurrence removed (every occurrence after the first is kept). -/
def replaceFirstAtSign (s : String) : String :=
  String.mk (removeFirstChar '@' s.toList)

/-- `normalizedMessageUsername` (`part_006` line 308):
`message.senderUsername?.replace('@', '') || ''`. -/
def normalizedSenderUsername (m : AlfaFrensMessage) : String :=
  match m.senderUsername with
  | some u => replaceFirstAtSign u
  | none => ""

/-- `normalizedConfigUsername` (`part_006` line 309):
`this.client.config.username?.replace('@', '') || ''`. -/
def normalizedConfigUsername (cfg : AlfaFrensConfig) : String :=
  replaceFirstAtSign cfg.username

/-- The three `continue` guards at the top of the per-message loop of
`AlfaFrensAIInteraction.processMessageBatch` (`part_006` lines 295-315):
skip when the id is a tracked sent-message id, when the sender id is the
configured self user id, or when both normalized usernames are nonempty and
equal. -/
def shouldSkipMessage (cfg : AlfaFrensConfig) (sentIds : List String)
    (m : AlfaFrensMessage) : Prop :=
  m.id ∈ sentIds ∨ m.senderId = cfg.userId ∨
    (normalizedSenderUsername m ≠ "" ∧ normalizedConfigUsername cfg ≠ "" ∧
      normalizedSenderUsername m = normalizedConfigUsername cfg)

instance (cfg : AlfaFrensConfig) (sentIds : List String) (m : AlfaFrensMessage) :
    Decidable (shouldSkipMessage cfg sentIds m) := by
  unfold shouldSkipMessage
  infer_instance

/-- The per-message loop of `processMessageBatch` (`part_006` lines 289-386),
projected to the list of messages handed to the response-worthiness
evaluator (`evaluateMessage`).  A skipped message is dropped; a forwarded
message is evaluated (the evaluator always answers true, `part_005`
lines 447-463), a reply is generated and sent, and the returned message id —
`sendResult m`, `none` when the send fails or returns no id — is added to
the sent-id registry consulted by the remaining messages of the batch. -/
def forwardedToEvaluator (cfg : AlfaFrensConfig)
    (sendResult : AlfaFrensMessage → Option String) :
    List AlfaFrensMessage → List String → List AlfaFrensMessage
  | [], _ => []
  | m :: rest, sentIds =>
    if shouldSkipMessage cfg sentIds m then
      forwardedToEvaluator cfg sendResult rest sentIds
    else
      m :: forwardedToEvaluator cfg sendResult rest
        (match sendResult m with
         | some newId => sentIds ++ [newId]
         | none => sentIds)

/-- The normalization the specification describes for the self-handle
comparison: strip one leading `'@'` (and only a leading one). -/
def stripLeadingAtSign (s : String) : String :=
  match s.toList with
  | '@' :: rest => String.mk rest
  | _ => s

/-! ### Heuristic fact extraction
(`src/src/extensions/fact-validation.ts`, `extractFactsFallback`) -/

/-- Sentence terminators of the split regex `/[.!?]+/`. -/
def sentenceTerminators : List Char := ['.', '!', '?']

/-- Split a character list at every terminator character.  JavaScript's
`split(/[.!?]+/)` collapses terminator runs instead, but the two agree after
empty pieces are filtered out, which `extractFactsFallback` does. -/
def splitOnTerminators : List Char → List (List Char)
  | [] => [[]]
  | c :: rest =>
    if c ∈ sentenceTerminators then [] :: splitOnTerminators rest
    else
      match splitOnTerminators rest with
      | [] => [[c]]
      | p :: ps => (c :: p) :: ps

/-- JavaScript `s.trim()`: the string without leading and trailing
whitespace. -/
def trimString (s : String) : String :=
  String.mk
    (((s.toList.dropWhile Char.isWhitespace).reverse.dropWhile
      Char.isWhitespace).reverse)

/-- Lower-case a string character by character (JavaScript `toLowerCase`,
restricted to the ASCII range the matched patterns use). -/
def toLowerString (s : String) : String :=
  String.mk (s.toList.map Char.toLower)

/-- JavaScript `s.startsWith(pre)`. -/
def stringStartsWith (pre s : String) : Bool :=
  pre.toList.isPrefixOf s.toList

/-- JavaScript `s.includes(c)` for a single character. -/
def containsChar (c : Char) (s : String) : Bool :=
  s.toList.contains c

/-- `content.split(/[.!?]+/).map(s => s.trim()).filter(s => s.length > 0)`
(`fact-validation.ts` line 157). -/
def sentencesOf (content : String) : List String :=
  ((splitOnTerminators content.toList).map
      (fun cs => trimString (String.mk cs))).filter
    (fun s => s ≠ "")

/-- Substring containment over lists (needle occurs contiguously in hay). -/
def listContainsSub [DecidableEq α] (needle : List α) : List α → Bool
  | [] => decide (needle = [])
  | x :: xs => needle.isPrefixOf (x :: xs) || listContainsSub needle xs

/-- Case-sensitive substring test, JavaScript `hay.includes(needle)` /
regex literal-alternative matching. -/
def containsSub (needle hay : String) : Bool :=
  listContainsSub needle.toList hay.toList

/-- The interrogative-start disjuncts of `isQuestion`
(`fact-validation.ts` lines 164-169). -/
def startsWithInterrogative (sentence : String) : Bool :=
  stringStartsWith "what" (toLowerString sentence) ||
  stringStartsWith "who" (toLowerString sentence) ||
  stringStartsWith "when" (toLowerString sentence) ||
  stringStartsWith "where" (toLowerString sentence) ||
  stringStartsWith "why" (toLowerString sentence) ||
  stringStartsWith "how" (toLowerString sentence)

/-- `isQuestion` (`fact-validation.ts` lines 163-169): the sentence contains
`'?'` or starts (lower-cased) with an interrogative word. -/
def isQuestion (sentence : String) : Bool :=
  containsChar '?' sentence || startsWithInterrogative sentence

/-- The hedge/opinion markers of the regex on `fact-validation.ts` line 171. -/
def opinionWords : List String :=
  ["think", "feel", "believe", "opinion", "seem", "appear", "likely",
   "possibly", "maybe", "perhaps"]

/-- `hasOpinionWords` (`fact-validation.ts` line 171): the case-insensitive
regex is a substring test against the lower-cased sentence. -/
def hasOpinionWords (sentence : String) : Bool :=
  opinionWords.any (fun w => containsSub w (toLowerString sentence))

/-- Four consecutive digits somewhere in the list (`\d{4}`). -/
def hasFourConsecutiveDigits : List Char → Bool
  | a :: b :: c :: d :: rest =>
    (a.isDigit && b.isDigit && c.isDigit && d.isDigit) ||
      hasFourConsecutiveDigits (b :: c :: d :: rest)
  | _ => false

/-- The pattern `in \d{4}` on the lower-cased sentence: the characters
`"in "` followed by four digits. -/
def hasInYear : List Char → Bool
  | 'i' :: 'n' :: ' ' :: a :: b :: c :: d :: rest =>
    (a.isDigit && b.isDigit && c.isDigit && d.isDigit) ||
      hasInYear ('n' :: ' ' :: a :: b :: c :: d :: rest)
  | _ :: rest => hasInYear rest
  | [] => false

/-- The literal fact-signal alternatives of the regex on
`fact-validation.ts` line 173 (beyond the two digit patterns). -/
def factSignalWords : List String :=
  ["founded", "created", "established", "launched", "developed", "built",
   "designed", "is a", "was born", "located", "headquartered"]

/-- `hasFactSignals` (`fact-validation.ts` line 173): `in \d{4}`, or any four
consecutive digits, or one of the fact-signal words, case-insensitively. -/
def hasFactSignals (sentence : String) : Bool :=
  hasInYear (toLowerString sentence).toList ||
  hasFourConsecutiveDigits sentence.toList ||
  factSignalWords.any (fun w => containsSub w (toLowerString sentence))

/-- `FactValidationManager.extractFactsFallback`
(`fact-validation.ts` lines 153-180): keep the sentences that are not
questions, have no opinion word and have a fact signal. -/
def extractFactsFallback (content : String) : List String :=
  (sentencesOf content).filter
    (fun sentence => !isQuestion sentence && !hasOpinionWords sentence &&
      hasFactSignals sentence)

/-! ### LLM-based fact extraction
(`src/src/extensions/fact-validation.ts`, `extractFacts`) -/

/-- A JSON value, the result type of JavaScript's `JSON.parse`. -/
inductive JsonValue where
  | null : JsonValue
  | bool (b : Bool) : JsonValue
  | num (q : ℚ) : JsonValue
  | str (s : String) : JsonValue
  | arr (items : List JsonValue) : JsonValue
  | obj (fields : List (String × JsonValue)) : JsonValue
  deriving Repr

/-- Drop leading JSON whitespace. -/
def skipWs : List Char → List Char
  | c :: cs => if c = ' ' || c = '\n' || c = '\t' || c = '\r' then skipWs cs else c :: cs
  | [] => []

/-- Read the characters of a JSON string literal after its opening quote, up
to the closing quote (escape sequences are not modelled; an input containing
a backslash fails to parse). -/
def takeStringChars : List Char → Option (List Char × List Char)
  | [] => none
  | '"' :: rest => some ([], rest)
  | '\\' :: _ => none
  | c :: rest =>
    match takeStringChars rest with
    | some (s, r) => some (c :: s, r)
    | none => none

/-- Leading run of decimal digits. -/
def takeDigits : List Char → List Char × List Char
  | c :: rest =>
    if c.isDigit then
      let (ds, r) := takeDigits rest
      (c :: ds, r)
    else ([], c :: rest)
  | [] => ([], [])

/-- Digits to a natural number value. -/
def digitsToNat (ds : List Char) : Nat :=
  ds.foldl (fun acc c => acc * 10 + (c.toNat - '0'.toNat)) 0

mutual

/-- Recursive-descent JSON parser (models `JSON.parse` on the fragment this
codebase exchanges with the generation service: null, booleans, integers,
strings without escapes, and arrays; `fuel` bounds the recursion and is
chosen large enough for the whole input). -/
def parseJsonValue : Nat → List Char → Option (JsonValue × List Char)
  | 0, _ => none
  | Nat.succ fuel, cs =>
    match skipWs cs with
    | 'n' :: 'u' :: 'l' :: 'l' :: rest => some (JsonValue.null, rest)
    | 't' :: 'r' :: 'u' :: 'e' :: rest => some (JsonValue.bool true, rest)
    | 'f' :: 'a' :: 'l' :: 's' :: 'e' :: rest => some (JsonValue.bool false, rest)
    | '"' :: rest =>
      match takeStringChars rest with
      | some (s, r) => some (JsonValue.str (String.mk s), r)
      | none => none
    | '[' :: rest =>
      match skipWs rest with
      | ']' :: r2 => some (JsonValue.arr [], r2)
      | r2 =>
        match parseJsonElems fuel r2 with
        | some (xs, r) => some (JsonValue.arr xs, r)
        | none => none
    | '-' :: rest =>
      match takeDigits rest with
      | ([], _) => none
      | (ds, r) => some (JsonValue.num (-(digitsToNat ds : ℚ)), r)
    | c :: rest =>
      if c.isDigit then
        let (ds, r) := takeDigits (c :: rest)
        some (JsonValue.num (digitsToNat ds : ℚ), r)
      else none
    | [] => none

/-- Comma-separated JSON values up to a closing `']'`. -/
def parseJsonElems : Nat → List Char → Option (List JsonValue × List Char)
  | 0, _ => none
  | Nat.succ fuel, cs =>
    match parseJsonValue fuel cs with
    | none => none
    | some (v, rest) =>
      match skipWs rest with
      | ',' :: r2 =>
        match parseJsonElems fuel r2 with
        | some (xs, r) => some (v :: xs, r)
        | none => none
      | ']' :: r2 => some ([v], r2)
      | _ => none

end

/-- `JSON.parse` on a whole string: parse one value and require only
whitespace after it. -/
def jsonParse (s : String) : Option JsonValue :=
  let cs := s.toList
  match parseJsonValue (2 * cs.length + 2) cs with
  | some (v, rest) => if skipWs rest = [] then some v else none
  | none => none

/-- The regex search `result.match(/\[.*\]/s)` (`fact-validation.ts`
line 120): with the dot-all greedy pattern, the match — when one exists — is
the substring from the first `'['` to the last `']'`, provided the latter
comes after the former. -/
def matchBracketSub (s : String) : Option String :=
  let cs := s.toList
  match cs.findIdx? (fun c => c = '['), cs.reverse.findIdx? (fun c => c = ']') with
  | some i, some jr =>
    let j := cs.length - 1 - jr
    if i < j then some (String.mk ((cs.drop i).take (j - i + 1))) else none
  | _, _ => none

/-- The filter of `fact-validation.ts` line 136: keep an item only when it is
a string whose trimmed text is nonempty. -/
def keepValidFact : JsonValue → Option String
  | JsonValue.str s => if trimString s ≠ "" then some s else none
  | _ => none

/-- The filter the specification's sentence describes: keep the non-empty
strings of the parsed array (no trimming). -/
def keepNonEmptyString : JsonValue → Option String
  | JsonValue.str s => if s ≠ "" then some s else none
  | _ => none

/-- The tail of `extractFacts` after the `JSON.parse` call
(`fact-validation.ts` lines 126-142): a parse failure or a parsed non-array
falls back to the heuristic extraction, a parsed array is filtered to its
valid fact strings. -/
def extractFactsFromParsed (content : String) : Option JsonValue → List String
  | some (JsonValue.arr items) => items.filterMap keepValidFact
  | some _ => extractFactsFallback content
  | none => extractFactsFallback content

/-- `FactValidationManager.extractFacts` (`fact-validation.ts` lines 99-147)
as a function of the generation call's outcome (`genResult`, `none` when
`generateText` throws) and the message text: every failure path — generation
error, no JSON array found, parse failure, parsed value not an array — falls
back to the deterministic heuristic extraction; on success the parsed array
is filtered to its valid fact strings. -/
def extractFacts (genResult : Option String) (content : String) : List String :=
  match genResult with
  | none => extractFactsFallback content
  | some result =>
    match matchBracketSub result with
    | none => extractFactsFallback content
    | some jsonStr => extractFactsFromParsed content (jsonParse jsonStr)

/-! ### Generation helpers (`src/unnamed/part_005`) -/

/-- The generation-call timeout, milliseconds (`part_005` line 202). -/
def llmTimeoutMs : Nat := 30000

/-- An external generation call, abstracted to the time (milliseconds after
the call starts) at which its promise settles and the outcome it settles
with (`Except.error` models a rejection). -/
structure TimedLLMCall where
  settleTimeMs : Nat
  outcome : Except String String
  deriving Repr

/-- The `Promise.race` of `generateLLMResponse` (`part_005` lines 199-214):
the generation promise raced against a timer that rejects with
`"LLM request timed out"` at 30000 ms.  The promise that settles first wins;
a generation call that has not settled before the timer fires loses the race
and the caller sees the timeout rejection.  Errors are re-thrown to the
caller (`part_005` line 239). -/
def generateLLMResponseModel (llm : TimedLLMCall) : Except String String :=
  if llm.settleTimeMs < llmTimeoutMs then llm.outcome
  else Except.error "LLM request timed out"

/-- The fallback text of `generatePostContent` (`part_005` line 269). -/
def postGenerationFallback : String :=
  "I'm sorry, I couldn't generate a post at this time."

/-- `generatePostContent` (`part_005` lines 246-271): the generated content
on success, the fixed fallback string when `generateLLMResponse` throws. -/
def generatePostContentModel (llm : TimedLLMCall) : String :=
  match generateLLMResponseModel llm with
  | Except.ok content => content
  | Except.error _ => postGenerationFallback

/-! ### Generation-then-validation flow
(`src/unnamed/part_005`, `generateResponse` lines 347-437) -/

/-- One entry of `factValidationResults` (`part_005` lines 375-379). -/
structure FactCheckResult where
  fact : String
  confidence : ℚ
  contradictions : List String
  deriving Repr, DecidableEq

/-- The flag of `part_005` line 382 / the filter of line 395:
`contradictions.length > 0 || confidence < 0.7`. -/
def requiresCorrectionFlag (r : FactCheckResult) : Bool :=
  decide (0 < r.contradictions.length) || decide (r.confidence < 7/10)

/-- `Number.prototype.toFixed(2)` for the confidence scores this pipeline
produces (clamped to `[0, 1]`): two decimal digits, rounding half up. -/
def formatTwoDecimals (q : ℚ) : String :=
  let n : Int := ⌊q * 100 + 1/2⌋
  let ip := n / 100
  let fp := (n % 100).natAbs
  toString ip ++ "." ++ (if fp < 10 then "0" else "") ++ toString fp

/-- One line of the correction context (`part_005` lines 396-402): the
flagged claim with its reason, either its contradiction list or its
confidence formatted to two decimals. -/
def correctionLine (r : FactCheckResult) : String :=
  if 0 < r.contradictions.length then
    "CORRECTION: \"" ++ r.fact ++ "\" contradicts known facts: " ++
      String.intercalate ", " r.contradictions
  else
    "CORRECTION: \"" ++ r.fact ++ "\" has low confidence (" ++
      formatTwoDecimals r.confidence ++ ")"

/-- `correctionContext` (`part_005` lines 394-403): the flagged results,
one correction line each, joined by newlines. -/
def correctionContext (results : List FactCheckResult) : String :=
  String.intercalate "\n" ((results.filter requiresCorrectionFlag).map correctionLine)

/-- `revisedPrompt` (`part_005` line 406): the original prompt with the
correction context appended. -/
def revisedPrompt (prompt : String) (results : List FactCheckResult) : String :=
  prompt ++ "\n\nYour initial response contains factual issues that need correction:\n"
    ++ correctionContext results ++ "\n\nRevised response:"

/-- The validation results built from the extracted facts
(`part_005` lines 373-385): one `FactCheckResult` per fact, from
`validateFact`'s confidence and contradiction list. -/
def factCheckResults (extracted : List String)
    (validate : String → FactValidation) : List FactCheckResult :=
  extracted.map (fun f =>
    { fact := f
      confidence := (validate f).confidence
      contradictions := (validate f).contradictions })

/-- The fact-validation phase of `generateResponse`
(`part_005` lines 347-437), from the raw generated response onward, its
external calls passed in as functions: `validate` is
`factValidationManager.validateFact`, `regen` the corrected-response
generation call (assumed to succeed — on a thrown error the surrounding
`catch` returns the raw response instead).  Returns the text `generateResponse`
returns together with the fact store after the cycle.  No facts extracted:
the raw response is returned unchanged.  Any fact flagged: one regeneration
from the revised prompt, returned without re-validation, and nothing is
stored.  Otherwise the raw response is returned and each fact with
confidence at least 0.7 and no contradictions is stored
(lines 421-430, via `storeFact` with the agent as source). -/
def responseValidationPhase (agentId : String) (now : Int)
    (prompt rawResponse : String) (extracted : List String)
    (validate : String → FactValidation) (regen : String → String)
    (store : List StoredFact) : String × List StoredFact :=
  let results := factCheckResults extracted validate
  if extracted.isEmpty then (rawResponse, store)
  else if results.any requiresCorrectionFlag then
    (regen (revisedPrompt prompt results), store)
  else
    (rawResponse,
      results.foldl (fun st r =>
        if 7/10 ≤ r.confidence ∧ r.contradictions = [] then
          storeFact st r.fact
            { confidence := r.confidence
              source := agentId
              timestamp := now
              contradictions := []
              relationships := [] }
        else st) store)

/-! ## Helper lemmas -/

/-- In a batch whose timestamps are sorted non-decreasingly — the ordering
contract of the remote API the orchestrator trusts — the last message's
timestamp is the batch's maximum. -/
theorem getLastD_timestamp_eq_max (rest : List AlfaFrensMessage) :
    ∀ m : AlfaFrensMessage,
      List.Chain' (fun a b => a.timestamp ≤ b.timestamp) (m :: rest) →
      (rest.getLastD m).timestamp = maxCreatedAt m rest := by
  induction rest with
  | nil => intro m _; rfl
  | cons x xs ih =>
    intro m h
    rw [List.chain'_cons] at h
    have hstep : maxCreatedAt m (x :: xs) = maxCreatedAt x xs := by
      simp only [maxCreatedAt, List.foldl_cons, max_eq_right h.1]
    rw [List.getLastD_cons, hstep]
    exact ih x h.2

/-- A message that every extension of the current sent-id registry would
skip is never forwarded to the evaluator, whatever the batch is. -/
theorem not_forwarded_of_always_skipped (cfg : AlfaFrensConfig)
    (sendResult : AlfaFrensMessage → Option String) (m : AlfaFrensMessage)
    (msgs : List AlfaFrensMessage) :
    ∀ sentIds : List String,
      (∀ sent' : List String, sentIds ⊆ sent' → shouldSkipMessage cfg sent' m) →
      m ∉ forwardedToEvaluator cfg sendResult msgs sentIds := by
  induction msgs with
  | nil => intro sentIds _; simp [forwardedToEvaluator]
  | cons x rest ih =>
    intro sentIds hskip
    by_cases hx : shouldSkipMessage cfg sentIds x
    · rw [forwardedToEvaluator, if_pos hx]
      exact ih sentIds hskip
    · rw [forwardedToEvaluator, if_neg hx]
      intro hmem
      rcases List.mem_cons.mp hmem with heq | hmem'
      · exact hx (heq ▸ hskip sentIds (List.Subset.refl sentIds))
      · revert hmem'
        cases hfx : sendResult x with
        | none => exact ih sentIds hskip
        | some newId =>
          exact ih (sentIds ++ [newId]) (fun sent' hsub =>
            hskip sent' (List.Subset.trans (List.subset_append_left _ _) hsub))

/-! ## Claim theorems -/

/-- C1: for every poll cycle in which the fetch returns a non-empty batch
(sorted by `createdAt` ascending, the remote ordering contract) whose
maximum `createdAt` is `T`, the checkpoint afterwards — and hence the next
fetch's `since` — equals `T + 1` milliseconds, however many messages share
timestamp `T`; an empty batch leaves the whole state, checkpoint included,
unchanged. -/
theorem checkpoint_advances_to_max_plus_one (s : PollState)
    (m : AlfaFrensMessage) (rest : List AlfaFrensMessage)
    (hsorted : List.Chain' (fun a b => a.timestamp ≤ b.timestamp) (m :: rest)) :
    nextFetchSince (processMessagesUpdate s (m :: rest)) = maxCreatedAt m rest + 1
    ∧ ∀ s' : PollState, processMessagesUpdate s' [] = s' := by
  constructor
  · show (rest.getLastD m).timestamp + 1 = maxCreatedAt m rest + 1
    rw [getLastD_timestamp_eq_max rest m hsorted]
  · intro s'; rfl

/-- C1 witness: a concrete sorted batch with two messages sharing the
maximum timestamp 7 advances the checkpoint to 8; an empty batch leaves the
state unchanged. -/
theorem checkpoint_advances_to_max_plus_one_witness :
    nextFetchSince (processMessagesUpdate ⟨0, []⟩
      [⟨"m1", "u1", some "alice", "hi", 5⟩,
       ⟨"m2", "u2", some "bob", "yo", 7⟩,
       ⟨"m3", "u3", some "carol", "hey", 7⟩]) = 8
    ∧ processMessagesUpdate ⟨3, []⟩ [] = ⟨3, []⟩ := by
  have h := checkpoint_advances_to_max_plus_one ⟨0, []⟩
    ⟨"m1", "u1", some "alice", "hi", 5⟩
    [⟨"m2", "u2", some "bob", "yo", 7⟩, ⟨"m3", "u3", some "carol", "hey", 7⟩]
    (by simp [List.chain'_cons])
  exact ⟨by rw [h.1]; decide, h.2 ⟨3, []⟩⟩

/-- C2: `storeFact` appends the fact record to the persistent store exactly
when the validation confidence reaches the 0.7 threshold, and is a no-op
(returning normally) when the confidence is strictly below it. -/
theorem storeFact_writes_iff_threshold (store : List StoredFact)
    (fact : String) (v : FactValidation) :
    (7/10 ≤ v.confidence → storeFact store fact v = store ++ [mkFactMemory fact v])
    ∧ (v.confidence < 7/10 → storeFact store fact v = store) := by
  constructor
  · intro h
    simp only [storeFact, confidenceThreshold]
    rw [if_neg (not_lt.mpr h)]
  · intro h
    simp only [storeFact, confidenceThreshold]
    rw [if_pos h]

/-- C2 witness: confidence exactly 0.69999 is not persisted; confidence
exactly 0.7 is. -/
theorem storeFact_writes_iff_threshold_witness :
    storeFact [] "boundary" ⟨69999/100000, "s", 0, [], []⟩ = []
    ∧ storeFact [] "kept" ⟨7/10, "s", 0, [], []⟩
        = [mkFactMemory "kept" ⟨7/10, "s", 0, [], []⟩] :=
  ⟨(storeFact_writes_iff_threshold [] "boundary" _).2 (by norm_num),
   (storeFact_writes_iff_threshold [] "kept" _).1 (by norm_num)⟩

/-- C3: `calculateFactConfidence` always lands in `[0, 1]`; with no
contradictions it is exactly 0.7 for an agent-authored message and exactly
0.5 for a third-party one; with contradictions, 0.3 times the average
contradiction confidence is subtracted from the base before clamping. -/
theorem calculateFactConfidence_spec (agentId : String)
    (m : AlfaFrensMessage) (cs : List Contradiction) :
    (0 ≤ calculateFactConfidence agentId m cs
      ∧ calculateFactConfidence agentId m cs ≤ 1)
    ∧ (m.senderId = agentId → cs = [] →
        calculateFactConfidence agentId m cs = 7/10)
    ∧ (m.senderId ≠ agentId → cs = [] →
        calculateFactConfidence agentId m cs = 1/2)
    ∧ (cs ≠ [] → calculateFactConfidence agentId m cs =
        max 0 (min 1 ((if m.senderId = agentId then (1/2 : ℚ) + 2/10 else 1/2)
          - avgContradictionConfidence cs * (3/10)))) := by
  refine ⟨⟨le_max_left 0 _, max_le (by norm_num) (min_le_left 1 _)⟩, ?_, ?_, ?_⟩
  · intro h1 h2
    subst h2
    simp [calculateFactConfidence, h1]
    norm_num [min_def, max_def]
  · intro h1 h2
    subst h2
    simp [calculateFactConfidence, h1]
    norm_num [min_def, max_def]
  · intro h
    have hlen : 0 < cs.length := List.length_pos.mpr h
    simp [calculateFactConfidence, hlen]

/-- C3 witness: agent-authored without contradictions gives 0.7, third-party
gives 0.5, and one contradiction of confidence 1 drags a third-party fact
down to 0.5 - 1·0.3 = 0.2. -/
theorem calculateFactConfidence_spec_witness :
    calculateFactConfidence "agent" ⟨"i", "agent", some "a", "t", 0⟩ [] = 7/10
    ∧ calculateFactConfidence "agent" ⟨"i", "other", some "o", "t", 0⟩ [] = 1/2
    ∧ calculateFactConfidence "agent" ⟨"i", "other", none, "t", 0⟩
        [⟨"f", "e", 1, 0⟩] = 1/5 := by
  refine ⟨(calculateFactConfidence_spec "agent" _ []).2.1 rfl rfl,
          (calculateFactConfidence_spec "agent" _ []).2.2.1 (by decide) rfl, ?_⟩
  have h := (calculateFactConfidence_spec "agent" ⟨"i", "other", none, "t", 0⟩
    [⟨"f", "e", 1, 0⟩]).2.2.2 (by simp)
  rw [h, if_neg (show ¬("other" = "agent") by decide)]
  norm_num [avgContradictionConfidence]

/-- C4 counterexample: the claim's normalization is "strip a leading `'@'`",
but the code removes the first `'@'` anywhere.  Sender handle `"@a@b"` and
configured handle `"a@b"` are equal after stripping a leading `'@'`, so the
claim demands the message be skipped; the code normalizes them to `"a@b"`
and `"ab"`, finds them different, and forwards the message to the
evaluator. -/
theorem selfMessages_leadingAt_counterexample :
    stripLeadingAtSign "@a@b" = stripLeadingAtSign "a@b"
    ∧ (⟨"m1", "uid-other", some "@a@b", "hello", 100⟩ : AlfaFrensMessage).senderId
        ≠ (⟨"uid-self", "a@b"⟩ : AlfaFrensConfig).userId
    ∧ forwardedToEvaluator ⟨"uid-self", "a@b"⟩ (fun _ => none)
        [⟨"m1", "uid-other", some "@a@b", "hello", 100⟩] []
        = [⟨"m1", "uid-other", some "@a@b", "hello", 100⟩] := by
  refine ⟨by decide, by decide, ?_⟩
  rw [forwardedToEvaluator,
    if_neg (show ¬ shouldSkipMessage ⟨"uid-self", "a@b"⟩ []
      ⟨"m1", "uid-other", some "@a@b", "hello", 100⟩ by decide)]
  rfl

/-- C4 (amended): a fetched message whose sender id equals the configured
self id, or whose id is already in the sent-message registry, or whose
sender username with its first `'@'` occurrence removed is nonempty and
equals the configured username with its first `'@'` occurrence removed, is
never forwarded to the response-worthiness evaluator (and hence never
replied to). -/
theorem selfMessages_never_forwarded (cfg : AlfaFrensConfig)
    (sendResult : AlfaFrensMessage → Option String)
    (msgs : List AlfaFrensMessage) (sentIds : List String)
    (m : AlfaFrensMessage)
    (h : m.senderId = cfg.userId ∨ m.id ∈ sentIds ∨
      (normalizedSenderUsername m ≠ "" ∧
        normalizedSenderUsername m = normalizedConfigUsername cfg)) :
    m ∉ forwardedToEvaluator cfg sendResult msgs sentIds := by
  refine not_forwarded_of_always_skipped cfg sendResult m msgs sentIds ?_
  intro sent' hsub
  rcases h with h1 | h2 | h3
  · exact Or.inr (Or.inl h1)
  · exact Or.inl (hsub h2)
  · exact Or.inr (Or.inr ⟨h3.1, h3.2 ▸ h3.1, h3.2⟩)

/-- C4 witness: a message whose id is already in the sent registry, applied
to a concrete one-message batch, is not forwarded. -/
theorem selfMessages_never_forwarded_witness :
    (⟨"m9", "other", some "x", "c", 1⟩ : AlfaFrensMessage) ∉
      forwardedToEvaluator ⟨"self", "bot"⟩ (fun _ => none)
        [⟨"m9", "other", some "x", "c", 1⟩] ["m9"] :=
  selfMessages_never_forwarded ⟨"self", "bot"⟩ (fun _ => none) _ ["m9"] _
    (Or.inr (Or.inl (by decide)))

/-- C5: whenever some extracted claim has a nonempty contradiction list or
confidence below 0.7, the flow appends the correction context (each flagged
claim with its contradiction list or its two-decimal confidence) to the
original prompt, regenerates exactly once from that revised prompt, returns
the regenerated text as-is without re-validation, and stores nothing in
that cycle. -/
theorem correction_regenerates_once (agentId : String) (now : Int)
    (prompt raw : String) (extracted : List String)
    (validate : String → FactValidation) (regen : String → String)
    (store : List StoredFact)
    (hflag : ∃ f ∈ extracted, (validate f).contradictions ≠ []
      ∨ (validate f).confidence < 7/10) :
    responseValidationPhase agentId now prompt raw extracted validate regen store
      = (regen (revisedPrompt prompt (factCheckResults extracted validate)),
         store) := by
  obtain ⟨f, hf, hcond⟩ := hflag
  have hne : ¬ extracted.isEmpty = true := by
    cases extracted with
    | nil => cases hf
    | cons a l => simp
  have hany : (factCheckResults extracted validate).any requiresCorrectionFlag
      = true := by
    rw [List.any_eq_true]
    refine ⟨⟨f, (validate f).confidence, (validate f).contradictions⟩,
      List.mem_map.mpr ⟨f, hf, rfl⟩, ?_⟩
    rw [requiresCorrectionFlag]
    rcases hcond with h | h
    · exact Bool.or_eq_true_iff.mpr
        (Or.inl (decide_eq_true (List.length_pos.mpr h)))
    · exact Bool.or_eq_true_iff.mpr (Or.inr (decide_eq_true h))
  simp only [responseValidationPhase, hne, hany, if_true, if_false,
    Bool.false_eq_true, reduceIte]

/-- C5 witness: a single extracted claim validated at confidence 0.5 (below
threshold, no contradictions) forces the correction path: the regenerated
text is returned and the store stays empty. -/
theorem correction_regenerates_once_witness :
    responseValidationPhase "agent" 0 "PROMPT" "RAW" ["Paris is in Germany"]
      (fun _ => ⟨1/2, "s", 0, [], []⟩) (fun _ => "CORRECTED") []
      = ("CORRECTED", []) := by
  have h := correction_regenerates_once "agent" 0 "PROMPT" "RAW"
    ["Paris is in Germany"] (fun _ => ⟨1/2, "s", 0, [], []⟩)
    (fun _ => "CORRECTED") []
    ⟨"Paris is in Germany", by simp, Or.inr (by norm_num)⟩
  exact h

/-- C6 counterexample: on generator output `["a", " "]` the code keeps only
strings whose trimmed text is nonempty, yielding `["a"]`, while the claim's
"filtered to non-empty strings" keeps the whitespace-only `" "` too. -/
theorem extractFacts_blank_string_counterexample :
    extractFacts (some "[\"a\", \" \"]") "some content" = ["a"]
    ∧ jsonParse "[\"a\", \" \"]"
        = some (JsonValue.arr [JsonValue.str "a", JsonValue.str " "])
    ∧ [JsonValue.str "a", JsonValue.str " "].filterMap keepNonEmptyString
        = ["a", " "]
    ∧ (["a"] : List String) ≠ ["a", " "] :=
  ⟨rfl, rfl, rfl, by decide⟩

/-- C6 (amended): `extractFacts` is total and every failure path — the
generation call throwing, no JSON array found in its output, the match
failing to parse, or parsing to a non-array — returns the heuristic
fallback extraction of the input text; in the success case it returns the
parsed array filtered to the strings that are nonempty after trimming. -/
theorem extractFacts_fallback_and_success (content r : String)
    (items : List JsonValue) :
    (extractFacts none content = extractFactsFallback content)
    ∧ (matchBracketSub r = none →
        extractFacts (some r) content = extractFactsFallback content)
    ∧ (∀ js, matchBracketSub r = some js →
        extractFacts (some r) content
          = extractFactsFromParsed content (jsonParse js))
    ∧ (extractFactsFromParsed content none = extractFactsFallback content)
    ∧ (∀ v, (∀ xs, v ≠ JsonValue.arr xs) →
        extractFactsFromParsed content (some v) = extractFactsFallback content)
    ∧ (extractFactsFromParsed content (some (JsonValue.arr items))
        = items.filterMap keepValidFact) := by
  refine ⟨rfl, ?_, ?_, rfl, ?_, rfl⟩
  · intro h
    simp [extractFacts, h]
  · intro js h1
    simp [extractFacts, h1]
  · intro v h3
    cases v <;> first | rfl | exact absurd rfl (h3 _)

/-- C6 witness: generator output containing the array `["x", "", 3]` — the
empty string and the number are filtered out, the success path returns
`["x"]`. -/
theorem extractFacts_fallback_and_success_witness :
    extractFacts (some "[\"x\", \"\", 3]") "c" = ["x"]
    ∧ extractFactsFromParsed "c" (some (JsonValue.str "oops"))
        = extractFactsFallback "c" := by
  have hmain := extractFacts_fallback_and_success "c" "[\"x\", \"\", 3]"
    [JsonValue.str "x", JsonValue.str "", JsonValue.num 3]
  have h3 := hmain.2.2.1 "[\"x\", \"\", 3]" rfl
  have h6 := hmain.2.2.2.2.2
  have h5 := hmain.2.2.2.2.1 (JsonValue.str "oops")
    (fun xs h => JsonValue.noConfusion h)
  exact ⟨h3.trans h6, h5⟩

/-- C7: the heuristic fallback keeps exactly the split sentences that are
not questions (no `'?'`, no interrogative start), contain no hedge/opinion
marker and contain a fact signal; in particular a sentence starting with
"What is" is rejected, one containing "I think" is rejected, and one
containing "founded in 1999" is accepted. -/
theorem extractFactsFallback_characterization :
    (∀ content sentence,
      sentence ∈ extractFactsFallback content ↔
        sentence ∈ sentencesOf content ∧
          (¬ containsChar '?' sentence = true
            ∧ ¬ startsWithInterrogative sentence = true)
          ∧ ¬ hasOpinionWords sentence = true
          ∧ hasFactSignals sentence = true)
    ∧ extractFactsFallback "What is the capital of France?" = []
    ∧ extractFactsFallback "I think Paris is beautiful." = []
    ∧ extractFactsFallback "The company was founded in 1999." =
        ["The company was founded in 1999"] := by
  refine ⟨?_, rfl, rfl, rfl⟩
  intro content s
  rw [extractFactsFallback, List.mem_filter]
  simp [isQuestion, not_or, and_assoc]

/-- C8: a generation call that has not settled when the 30-second timer
fires loses the `Promise.race` — the caller sees the timeout rejection —
and `generatePostContent` then returns the exact fallback string instead of
propagating the error. -/
theorem generation_timeout_fallback (llm : TimedLLMCall)
    (h : llmTimeoutMs ≤ llm.settleTimeMs) :
    generateLLMResponseModel llm = Except.error "LLM request timed out"
    ∧ generatePostContentModel llm
        = "I'm sorry, I couldn't generate a post at this time." := by
  have h1 : generateLLMResponseModel llm = Except.error "LLM request timed out" := by
    rw [generateLLMResponseModel, if_neg (not_lt.mpr h)]
  refine ⟨h1, ?_⟩
  rw [generatePostContentModel, h1]
  rfl

/-- C8 witness: a call that would settle only at 45 seconds produces the
timeout error and the post fallback text. -/
theorem generation_timeout_fallback_witness :
    generateLLMResponseModel ⟨45000, Except.ok "late answer"⟩
        = Except.error "LLM request timed out"
    ∧ generatePostContentModel ⟨45000, Except.ok "late answer"⟩
        = "I'm sorry, I couldn't generate a post at this time." :=
  generation_timeout_fallback ⟨45000, Except.ok "late answer"⟩
    (by norm_num [llmTimeoutMs])

/-- C9: the checkpoint the poll loop actually fetches with after a restart
is the restart-time `Date.now()` of the `AlfaFrensAIInteraction`
constructor, not the value `AlfaFrensManager.initialize` restored from the
cache: with cached checkpoint 1000 and a restart at epoch-millisecond
5000000, the manager's field is restored to 1000, yet the first poll's
`since` is 5000000, and `stop` would persist the manager's never-advanced
field again. -/
theorem restart_checkpoint_divergence :
    managerRestoredCheckpoint (some 1000) 5000000 = 1000
    ∧ nextFetchSince ⟨aiInteractionInitCheckpoint 5000000, []⟩ = 5000000
    ∧ managerPersistedOnStop (managerRestoredCheckpoint (some 1000) 5000000)
        = 1000
    ∧ (5000000 : Int) ≠ 1000 :=
  ⟨rfl, rfl, rfl, by decide⟩

/-- C10: with `since` absent, or equal to 0 (the default is chosen by a
falsy test), the API client requests messages since `now - 3600000` (one
hour ago); a nonzero `since` is passed through. -/
theorem getMessages_since_falsy_default (now : Int) (s : Int) (hs : s ≠ 0) :
    getMessagesSinceParam none now = now - 3600000
    ∧ getMessagesSinceParam (some 0) now = now - 3600000
    ∧ getMessagesSinceParam (some s) now = s
    ∧ getMessagesUrl ⟨none, none, false, false⟩ now
        = "/api/ai/getChannelMessages?since=" ++ toString (now - 3600000)
    ∧ getMessagesUrl ⟨some 0, none, false, false⟩ now
        = "/api/ai/getChannelMessages?since=" ++ toString (now - 3600000) := by
  refine ⟨rfl, rfl, ?_, rfl, rfl⟩
  rw [getMessagesSinceParam]
  exact if_neg hs

/-- C10 witness: a caller passing `since = 123` gets 123, while `since = 0`
at `now = 7200000` yields 3600000 — the last hour only, not the beginning
of history. -/
theorem getMessages_since_falsy_default_witness :
    getMessagesSinceParam (some 123) 7200000 = 123
    ∧ getMessagesSinceParam (some 0) 7200000 = 3600000 := by
  have h := getMessages_since_falsy_default 7200000 123 (by decide)
  exact ⟨h.2.2.1, h.2.1.trans (by decide)⟩
